import Mathlib

/-!
Shallow embedding of `src/src/lib/paginator/paginator.ts` (the `MatPaginator`
component of the material2 repository).

Modelling conventions:
* JavaScript numbers are modelled as `Int`; every numeric value that actually
  arises in the component is an integer.  The non-finite values `Infinity`,
  `-Infinity` and `NaN`, which appear only as results of dividing by zero or
  by `undefined`, are modelled by the extended type `JSNum`.
* The field `_pageSize` is `Option Int`: `none` models the `undefined` value
  the field holds before any assignment (it is declared without initializer in
  the source); `some n` models the number `n`.
* Inputs that go through `coerceNumberProperty` are modelled by `JSValue`:
  `JSValue.num n` stands for any input that coerces to the number `n` and
  `JSValue.nonNumeric` for any input that fails numeric coercion (for which
  the coercion helper returns its fallback `0`).
* Angular change-detection plumbing (`markForCheck`), the template, and the
  intl-label subscription are presentation plumbing with no effect on the
  pagination state; they are not part of the model.
* Event emission (`this.page.emit(...)`) is modelled by returning, next to the
  new state, the list of `PageEvent` values emitted during the call, in order.
  Property setters contain no `emit` call, so their event component is `[]`.
-/

/-- An input value as seen by `coerceNumberProperty`: either something that
coerces to the number `n`, or something non-coercible. -/
inductive JSValue where
  | num : Int → JSValue
  | nonNumeric : JSValue
deriving DecidableEq, Repr

/-- `coerceNumberProperty(value)` from `@angular/cdk/coercion`: returns the
coerced number, or the fallback `0` when the value is not number-coercible. -/
def coerceNumberProperty : JSValue → Int
  | JSValue.num n => n
  | JSValue.nonNumeric => 0

/-- A JavaScript number that may be non-finite: a finite integer, `Infinity`,
`-Infinity`, or `NaN`. -/
inductive JSNum where
  | fin : Int → JSNum
  | posInf : JSNum
  | negInf : JSNum
  | nan : JSNum
deriving DecidableEq, Repr

/-- Subtracting `1` from a JavaScript number: finite values decrease by one,
`±Infinity - 1 = ±Infinity`, `NaN - 1 = NaN`. -/
def JSNum.sub1 : JSNum → JSNum
  | JSNum.fin n => JSNum.fin (n - 1)
  | x => x

/-- The JavaScript comparison `a < x` for a finite `a` and a possibly
non-finite `x`; any comparison against `NaN` is `false`. -/
def JSNum.ltInt (a : Int) : JSNum → Bool
  | JSNum.fin n => decide (a < n)
  | JSNum.posInf => true
  | JSNum.negInf => false
  | JSNum.nan => false

/-- `Math.ceil(a / b)` where the numerator is a finite integer and the
denominator is a number field that may be `undefined` (`none`).
Division by `undefined` is `NaN`; division of a nonzero value by `0` is
`±Infinity`; `0 / 0` is `NaN`; otherwise the quotient is exact (the operands
are integers) and `Math.ceil` is the mathematical ceiling, computed as
`⌈a / d⌉ = -⌊-a / d⌋` with `Int.fdiv`, flooring integer division (see
`neg_fdiv_neg_eq_ceil` below for the agreement with `⌈⌉` on `ℚ`). -/
def jsCeilDiv (a : Int) (b : Option Int) : JSNum :=
  match b with
  | none => JSNum.nan
  | some d =>
      if d = 0 then
        if 0 < a then JSNum.posInf else if a < 0 then JSNum.negInf else JSNum.nan
      else JSNum.fin (-(Int.fdiv (-a) d))

/-- The JavaScript product `a * b` where `b` may be `undefined`:
`a * undefined` is `NaN`, otherwise an exact integer product. -/
def jsMul (a : Int) : Option Int → JSNum
  | none => JSNum.nan
  | some b => JSNum.fin (a * b)

/-- `Math.floor(x / d)` for a possibly non-finite numerator `x` and a finite
integer denominator `d`.  `NaN` propagates; a nonzero finite value divided by
`0` is `±Infinity`; `0 / 0` is `NaN`; otherwise the quotient is exact and
`Math.floor` is the mathematical floor, which `Int.fdiv` (flooring integer
division) computes for every nonzero divisor (see `fdiv_eq_floor` below). -/
def jsFloorDiv (x : JSNum) (d : Int) : JSNum :=
  match x with
  | JSNum.nan => JSNum.nan
  | JSNum.posInf =>
      if 0 < d then JSNum.posInf else if d < 0 then JSNum.negInf else JSNum.nan
  | JSNum.negInf =>
      if 0 < d then JSNum.negInf else if d < 0 then JSNum.posInf else JSNum.nan
  | JSNum.fin a =>
      if d = 0 then
        if 0 < a then JSNum.posInf else if a < 0 then JSNum.negInf else JSNum.nan
      else JSNum.fin (Int.fdiv a d)

/-- The JavaScript expression `x || 0`: the falsy numbers `NaN`, `0` and `-0`
are replaced by `0` (on integers only `NaN → 0` is an actual change; `0 || 0`
is `0` and our model has no `-0`); every other number is kept. -/
def jsOrZero : JSNum → JSNum
  | JSNum.nan => JSNum.fin 0
  | x => x

/-- The default page size if there is no page size and there are no provided
page size options (constant `DEFAULT_PAGE_SIZE` of the source). -/
def DEFAULT_PAGE_SIZE : Int := 50

/-- The `PageEvent` object emitted by the paginator.  Its `pageSize` field is
read from `this.pageSize`, which may still be `undefined` (`none`). -/
structure PageEvent where
  pageIndex : Int
  pageSize : Option Int
  length : Int
deriving DecidableEq, Repr

/-- The state of a `MatPaginator` instance: the backing fields of the
component.  `_pageSize` and `_displayedPageSizeOptions` are declared in the
source without initializer and are `undefined` (`none`) until first written. -/
structure MatPaginator where
  _initialized : Bool
  _pageIndex : Int
  _length : Int
  _pageSize : Option Int
  _pageSizeOptions : List Int
  _hidePageSize : Bool
  _showFirstLastButtons : Bool
  _displayedPageSizeOptions : Option (List Int)
deriving DecidableEq, Repr

/-- The state right after the constructor ran: field initializers applied,
`_initialized`, `_pageSize` and `_displayedPageSizeOptions` still undefined
(`_initialized` is only ever read as a truthiness test, so its `undefined`
initial value is modelled by `false`). -/
def initialState : MatPaginator :=
  { _initialized := false
    _pageIndex := 0
    _length := 0
    _pageSize := none
    _pageSizeOptions := []
    _hidePageSize := false
    _showFirstLastButtons := false
    _displayedPageSizeOptions := none }

/-- JavaScript truthiness test `!x` for a number field that may be
`undefined`: `undefined` and `0` are falsy, every other integer is truthy. -/
def isFalsyNum : Option Int → Bool
  | none => true
  | some n => decide (n = 0)

/-- `_updateDisplayedPageSizeOptions()`: no-op before initialization;
otherwise defaults a falsy page size to the first option (or
`DEFAULT_PAGE_SIZE` when there are no options), then rebuilds
`_displayedPageSizeOptions` as a copy of `pageSizeOptions` with the page size
appended when missing, sorted ascending numerically.  JavaScript
`Array.prototype.sort` with the comparator `(a, b) => a - b` produces the
ascending reordering of the array; on integers that reordering is unique, so
any sorting algorithm models it — we use `List.insertionSort`.
The derivation is split into the two statements of the source body:
`resolvePageSize` is the `if (!this.pageSize) {...}` defaulting statement and
`displayedList` is the slice / push-if-missing / sort sequence. -/
def resolvePageSize (s : MatPaginator) : MatPaginator :=
  if isFalsyNum s._pageSize then
    { s with _pageSize := some (match s._pageSizeOptions with
        | [] => DEFAULT_PAGE_SIZE
        | x :: _ => x) }
  else s

/-- The list stored into `_displayedPageSizeOptions`: a copy of
`pageSizeOptions`, with the current page size pushed when
`indexOf(pageSize) == -1` (exactly: when it is not a member), sorted
ascending.  `getD 0` reads the page size, which is `some _` at every call
site (the caller just resolved it). -/
def displayedList (s : MatPaginator) : List Int :=
  let ps : Int := s._pageSize.getD 0
  List.insertionSort (· ≤ ·)
    (if ps ∈ s._pageSizeOptions then s._pageSizeOptions
     else s._pageSizeOptions ++ [ps])

/-- The body of `_updateDisplayedPageSizeOptions()`: no-op before
initialization, otherwise resolve the page size and store the derived list. -/
def _updateDisplayedPageSizeOptions (s : MatPaginator) : MatPaginator :=
  if !s._initialized then s
  else
    let s1 := resolvePageSize s
    { s1 with _displayedPageSizeOptions := some (displayedList s1) }

/-- The `pageIndex` setter: coerce and store; no derivation, no emission. -/
def set_pageIndex (s : MatPaginator) (value : JSValue) : MatPaginator × List PageEvent :=
  ({ s with _pageIndex := coerceNumberProperty value }, [])

/-- The `length` setter: coerce and store; no derivation, no emission. -/
def set_length (s : MatPaginator) (value : JSValue) : MatPaginator × List PageEvent :=
  ({ s with _length := coerceNumberProperty value }, [])

/-- The `pageSize` setter: coerce, store, and re-derive the displayed
page-size options; no emission. -/
def set_pageSize (s : MatPaginator) (value : JSValue) : MatPaginator × List PageEvent :=
  (_updateDisplayedPageSizeOptions
    { s with _pageSize := some (coerceNumberProperty value) }, [])

/-- The `pageSizeOptions` setter: `(value || []).map(coerceNumberProperty)` —
a null/undefined input (`none`) becomes `[]`, each element of a given list is
coerced individually — then re-derive the displayed options; no emission. -/
def set_pageSizeOptions (s : MatPaginator) (value : Option (List JSValue)) :
    MatPaginator × List PageEvent :=
  (_updateDisplayedPageSizeOptions
    { s with _pageSizeOptions := (value.getD []).map coerceNumberProperty }, [])

/-- `ngOnInit()`: mark the component initialized and run the first derivation
of the displayed page-size options. -/
def ngOnInit (s : MatPaginator) : MatPaginator :=
  _updateDisplayedPageSizeOptions { s with _initialized := true }

/-- `getNumberOfPages()`: `Math.ceil(this.length / this.pageSize) - 1`.
Non-finite when `pageSize` is `0` or undefined. -/
def getNumberOfPages (s : MatPaginator) : JSNum :=
  JSNum.sub1 (jsCeilDiv s._length s._pageSize)

/-- `hasPreviousPage()`: `this.pageIndex >= 1 && this.pageSize != 0`.  The
loose comparison `undefined != 0` is `true`, so an undefined page size does
not disable this test. -/
def hasPreviousPage (s : MatPaginator) : Bool :=
  decide (1 ≤ s._pageIndex) && decide (s._pageSize ≠ some 0)

/-- `hasNextPage()`: `this.pageIndex < this.getNumberOfPages() && this.pageSize != 0`.
When the page count is `NaN` (undefined page size and zero length) the
comparison is `false`; when it is `Infinity` the comparison is `true` but the
second conjunct is `false`. -/
def hasNextPage (s : MatPaginator) : Bool :=
  JSNum.ltInt s._pageIndex (getNumberOfPages s) && decide (s._pageSize ≠ some 0)

/-- `_emitPageEvent()`: the snapshot `{ pageIndex, pageSize, length }` of the
state at the moment of the call. -/
def _emitPageEvent (s : MatPaginator) : PageEvent :=
  { pageIndex := s._pageIndex, pageSize := s._pageSize, length := s._length }

/-- `nextPage()`: guarded by `hasNextPage()`; increments `pageIndex` through
its setter and emits one page event. -/
def nextPage (s : MatPaginator) : MatPaginator × List PageEvent :=
  if !hasNextPage s then (s, [])
  else
    let s' := (set_pageIndex s (JSValue.num (s._pageIndex + 1))).1
    (s', [_emitPageEvent s'])

/-- `previousPage()`: guarded by `hasPreviousPage()`; decrements `pageIndex`
through its setter and emits one page event. -/
def previousPage (s : MatPaginator) : MatPaginator × List PageEvent :=
  if !hasPreviousPage s then (s, [])
  else
    let s' := (set_pageIndex s (JSValue.num (s._pageIndex - 1))).1
    (s', [_emitPageEvent s'])

/-- `firstPage()`: guarded by `hasPreviousPage()`; sets `pageIndex` to `0`
through its setter and emits one page event. -/
def firstPage (s : MatPaginator) : MatPaginator × List PageEvent :=
  if !hasPreviousPage s then (s, [])
  else
    let s' := (set_pageIndex s (JSValue.num 0)).1
    (s', [_emitPageEvent s'])

/-- `lastPage()`: guarded by `hasNextPage()`; sets `pageIndex` to
`getNumberOfPages()` through its setter and emits one page event.  The guard
forces the page count to be finite (see `hasNextPage_getNumberOfPages_fin`),
so the non-finite fallback branch is unreachable. -/
def lastPage (s : MatPaginator) : MatPaginator × List PageEvent :=
  if !hasNextPage s then (s, [])
  else
    match getNumberOfPages s with
    | JSNum.fin n =>
        let s' := (set_pageIndex s (JSValue.num n)).1
        (s', [_emitPageEvent s'])
    | _ => (s, [])

/-- `_changePageSize(pageSize)`:
`startIndex = this.pageIndex * this.pageSize` (NaN when the page size is
still undefined); `this.pageIndex = Math.floor(startIndex / pageSize) || 0`;
`this.pageSize = pageSize` (through the setter, re-deriving the displayed
options); emit one page event.  Result `none` marks the executions in which
the new `pageIndex` would be `±Infinity` (only when the new page size is `0`
and the start index is a nonzero finite number): such a state has no
representation in this integer-valued model. -/
def _changePageSize (s : MatPaginator) (pageSize : Int) :
    Option (MatPaginator × List PageEvent) :=
  match jsOrZero (jsFloorDiv (jsMul s._pageIndex s._pageSize) pageSize) with
  | JSNum.fin n =>
      let s1 := (set_pageIndex s (JSValue.num n)).1
      let s2 := (set_pageSize s1 (JSValue.num pageSize)).1
      some (s2, [_emitPageEvent s2])
  | _ => none

/-! ### Basic lemmas about the embedding -/

/-- For a positive divisor, flooring integer division agrees with the floor
of the exact rational quotient. -/
lemma fdiv_eq_floor (a b : Int) (hb : 0 < b) :
    Int.fdiv a b = ⌊(a : ℚ) / (b : ℚ)⌋ := by
  rw [Int.fdiv_eq_ediv a hb.le]
  have h1 : ((b.toNat : ℕ) : ℚ) = (b : ℚ) := by
    rw [← Int.cast_natCast, Int.toNat_of_nonneg hb.le]
  have h2 := Rat.floor_intCast_div_natCast a b.toNat
  rw [h1] at h2
  rw [h2, Int.toNat_of_nonneg hb.le]

/-- For a positive divisor, `-((-a).fdiv b)` is the ceiling of the exact
rational quotient `a / b`. -/
lemma neg_fdiv_neg_eq_ceil (a b : Int) (hb : 0 < b) :
    -(Int.fdiv (-a) b) = ⌈(a : ℚ) / (b : ℚ)⌉ := by
  rw [fdiv_eq_floor (-a) b hb, Int.cast_neg, neg_div, Int.floor_neg, neg_neg]

/-- Unfolding `getNumberOfPages` when the page size is a nonzero number. -/
lemma getNumberOfPages_some (s : MatPaginator) (p : Int)
    (hps : s._pageSize = some p) (hp : p ≠ 0) :
    getNumberOfPages s = JSNum.fin (-(Int.fdiv (-s._length) p) - 1) := by
  simp [getNumberOfPages, jsCeilDiv, hps, hp, JSNum.sub1]

/-- For a positive page size, `getNumberOfPages` is
`⌈length / pageSize⌉ - 1`. -/
lemma getNumberOfPages_pos (s : MatPaginator) (p : Int)
    (hps : s._pageSize = some p) (hp : 0 < p) :
    getNumberOfPages s = JSNum.fin (⌈(s._length : ℚ) / (p : ℚ)⌉ - 1) := by
  rw [getNumberOfPages_some s p hps hp.ne', neg_fdiv_neg_eq_ceil _ _ hp]

/-- `getNumberOfPages` only reads the `_length` and `_pageSize` fields. -/
lemma getNumberOfPages_congr (s t : MatPaginator)
    (hL : s._length = t._length) (hp : s._pageSize = t._pageSize) :
    getNumberOfPages s = getNumberOfPages t := by
  simp [getNumberOfPages, hL, hp]

/-- `hasPreviousPage` is exactly "`pageIndex ≥ 1` and `pageSize ≠ 0`" (where
an undefined page size counts as different from `0`, as the loose JavaScript
comparison `undefined != 0` does). -/
lemma hasPreviousPage_iff (s : MatPaginator) :
    hasPreviousPage s = true ↔ 1 ≤ s._pageIndex ∧ s._pageSize ≠ some 0 := by
  simp [hasPreviousPage]

/-- `hasNextPage` is exactly "the page count is a finite number `m`,
`pageIndex < m`, and `pageSize ≠ 0`": the non-finite page counts arising from
a zero or undefined page size never satisfy it. -/
lemma hasNextPage_iff (s : MatPaginator) :
    hasNextPage s = true ↔
      ∃ m : Int, getNumberOfPages s = JSNum.fin m ∧
        s._pageIndex < m ∧ s._pageSize ≠ some 0 := by
  rcases hps : s._pageSize with _ | p
  · simp [hasNextPage, getNumberOfPages, jsCeilDiv, hps, JSNum.sub1, JSNum.ltInt]
  · by_cases hp : p = 0
    · subst hp
      simp only [hasNextPage, hps]
      constructor
      · intro h
        simp at h
      · rintro ⟨m, _, _, h⟩
        exact absurd rfl h
    · rw [hasNextPage, hps]
      rw [getNumberOfPages_some s p hps hp]
      simp [JSNum.ltInt, hp]

/-- When `hasNextPage` holds, the page count is a finite number. -/
lemma hasNextPage_getNumberOfPages_fin (s : MatPaginator)
    (h : hasNextPage s = true) :
    ∃ m : Int, getNumberOfPages s = JSNum.fin m ∧ s._pageIndex < m := by
  obtain ⟨m, hm, hlt, _⟩ := (hasNextPage_iff s).mp h
  exact ⟨m, hm, hlt⟩

/-- Before initialization the derivation is a no-op. -/
lemma update_not_initialized (s : MatPaginator) (h : s._initialized = false) :
    _updateDisplayedPageSizeOptions s = s := by
  simp [_updateDisplayedPageSizeOptions, h]

/-- On an initialized state the derivation resolves the page size and stores
the derived list. -/
lemma update_initialized (s : MatPaginator) (hinit : s._initialized = true) :
    _updateDisplayedPageSizeOptions s =
      { resolvePageSize s with
        _displayedPageSizeOptions := some (displayedList (resolvePageSize s)) } := by
  simp [_updateDisplayedPageSizeOptions, hinit]

/-- `resolvePageSize` writes only `_pageSize`. -/
lemma resolvePageSize_frame (s : MatPaginator) :
    (resolvePageSize s)._initialized = s._initialized ∧
    (resolvePageSize s)._pageIndex = s._pageIndex ∧
    (resolvePageSize s)._length = s._length ∧
    (resolvePageSize s)._pageSizeOptions = s._pageSizeOptions ∧
    (resolvePageSize s)._hidePageSize = s._hidePageSize ∧
    (resolvePageSize s)._showFirstLastButtons = s._showFirstLastButtons ∧
    (resolvePageSize s)._displayedPageSizeOptions = s._displayedPageSizeOptions := by
  by_cases hf : isFalsyNum s._pageSize <;> simp [resolvePageSize, hf]

/-- A truthy (defined, nonzero) page size is not overwritten. -/
lemma resolvePageSize_not_falsy (s : MatPaginator)
    (h : isFalsyNum s._pageSize = false) : resolvePageSize s = s := by
  simp [resolvePageSize, h]

/-- A falsy page size is defaulted to the first option, or to
`DEFAULT_PAGE_SIZE` when there are no options. -/
lemma resolvePageSize_falsy (s : MatPaginator)
    (h : isFalsyNum s._pageSize = true) :
    (resolvePageSize s)._pageSize =
      some (match s._pageSizeOptions with
            | [] => DEFAULT_PAGE_SIZE
            | x :: _ => x) := by
  simp [resolvePageSize, h]

/-- After `resolvePageSize` the page size is a defined number. -/
lemma resolvePageSize_some (s : MatPaginator) :
    ∃ p : Int, (resolvePageSize s)._pageSize = some p := by
  by_cases hf : isFalsyNum s._pageSize
  · exact ⟨_, resolvePageSize_falsy s hf⟩
  · rcases hps : s._pageSize with _ | n
    · simp [isFalsyNum, hps] at hf
    · rw [resolvePageSize_not_falsy s (by simpa using hf)]
      exact ⟨n, hps⟩

/-- The derived list is sorted ascending. -/
lemma displayedList_sorted (s : MatPaginator) :
    List.Sorted (· ≤ ·) (displayedList s) :=
  List.sorted_insertionSort _ _

/-- The derived list contains the current page size. -/
lemma displayedList_mem (s : MatPaginator) (p : Int) (h : s._pageSize = some p) :
    p ∈ displayedList s := by
  unfold displayedList
  rw [(List.perm_insertionSort _ _).mem_iff]
  simp only [h, Option.getD_some]
  by_cases hmem : p ∈ s._pageSizeOptions <;> simp [hmem]

/-- Every element of the derived list is a configured option or the current
page size. -/
lemma displayedList_subset (s : MatPaginator) (p : Int) (h : s._pageSize = some p) :
    ∀ x ∈ displayedList s, x ∈ s._pageSizeOptions ∨ x = p := by
  intro x hx
  unfold displayedList at hx
  rw [(List.perm_insertionSort _ _).mem_iff] at hx
  simp only [h, Option.getD_some] at hx
  by_cases hmem : p ∈ s._pageSizeOptions
  · rw [if_pos hmem] at hx
    exact Or.inl hx
  · rw [if_neg hmem] at hx
    rcases List.mem_append.mp hx with h1 | h1
    · exact Or.inl h1
    · simp only [List.mem_singleton] at h1
      exact Or.inr h1

/-- The derivation writes only `_pageSize` and `_displayedPageSizeOptions`. -/
lemma update_frame (s : MatPaginator) :
    (_updateDisplayedPageSizeOptions s)._initialized = s._initialized ∧
    (_updateDisplayedPageSizeOptions s)._pageIndex = s._pageIndex ∧
    (_updateDisplayedPageSizeOptions s)._length = s._length ∧
    (_updateDisplayedPageSizeOptions s)._pageSizeOptions = s._pageSizeOptions ∧
    (_updateDisplayedPageSizeOptions s)._hidePageSize = s._hidePageSize ∧
    (_updateDisplayedPageSizeOptions s)._showFirstLastButtons = s._showFirstLastButtons := by
  by_cases hinit : s._initialized
  · rw [update_initialized s hinit]
    obtain ⟨h1, h2, h3, h4, h5, h6, _⟩ := resolvePageSize_frame s
    exact ⟨h1, h2, h3, h4, h5, h6⟩
  · rw [update_not_initialized s (by simpa using hinit)]
    exact ⟨rfl, rfl, rfl, rfl, rfl, rfl⟩

/-- A truthy page size survives the derivation unchanged. -/
lemma update_pageSize_not_falsy (s : MatPaginator)
    (h : isFalsyNum s._pageSize = false) :
    (_updateDisplayedPageSizeOptions s)._pageSize = s._pageSize := by
  by_cases hinit : s._initialized
  · rw [update_initialized s hinit]
    show (resolvePageSize s)._pageSize = s._pageSize
    rw [resolvePageSize_not_falsy s h]
  · rw [update_not_initialized s (by simpa using hinit)]

/-- A falsy page size is defaulted when the derivation runs. -/
lemma update_pageSize_falsy (s : MatPaginator) (hinit : s._initialized = true)
    (h : isFalsyNum s._pageSize = true) :
    (_updateDisplayedPageSizeOptions s)._pageSize =
      some (match s._pageSizeOptions with
            | [] => DEFAULT_PAGE_SIZE
            | x :: _ => x) := by
  rw [update_initialized s hinit]
  show (resolvePageSize s)._pageSize = _
  exact resolvePageSize_falsy s h

/-- After the derivation runs on an initialized state, the page size is a
defined number contained in the defined, ascending-sorted displayed list. -/
lemma update_displayed (s : MatPaginator) (hinit : s._initialized = true) :
    ∃ (p : Int) (l : List Int),
      (_updateDisplayedPageSizeOptions s)._pageSize = some p ∧
      (_updateDisplayedPageSizeOptions s)._displayedPageSizeOptions = some l ∧
      p ∈ l ∧ List.Sorted (· ≤ ·) l := by
  obtain ⟨p, hp⟩ := resolvePageSize_some s
  refine ⟨p, displayedList (resolvePageSize s), ?_, ?_, ?_, displayedList_sorted _⟩
  · rw [update_initialized s hinit]
    exact hp
  · rw [update_initialized s hinit]
  · exact displayedList_mem _ p hp

/-- `nextPage` with a satisfied guard: only `pageIndex` changes (to its
successor) and one event is emitted, reflecting the mutated state. -/
lemma nextPage_of_hasNext (s : MatPaginator) (h : hasNextPage s = true) :
    nextPage s = ({ s with _pageIndex := s._pageIndex + 1 },
                  [_emitPageEvent { s with _pageIndex := s._pageIndex + 1 }]) := by
  simp [nextPage, h, set_pageIndex, coerceNumberProperty]

/-- `nextPage` with a failed guard: nothing changes, nothing is emitted. -/
lemma nextPage_of_not (s : MatPaginator) (h : hasNextPage s = false) :
    nextPage s = (s, []) := by
  simp [nextPage, h]

/-- `previousPage` with a satisfied guard. -/
lemma previousPage_of_hasPrev (s : MatPaginator) (h : hasPreviousPage s = true) :
    previousPage s = ({ s with _pageIndex := s._pageIndex - 1 },
                      [_emitPageEvent { s with _pageIndex := s._pageIndex - 1 }]) := by
  simp [previousPage, h, set_pageIndex, coerceNumberProperty]

/-- `previousPage` with a failed guard. -/
lemma previousPage_of_not (s : MatPaginator) (h : hasPreviousPage s = false) :
    previousPage s = (s, []) := by
  simp [previousPage, h]

/-- `firstPage` with a satisfied guard. -/
lemma firstPage_of_hasPrev (s : MatPaginator) (h : hasPreviousPage s = true) :
    firstPage s = ({ s with _pageIndex := 0 },
                   [_emitPageEvent { s with _pageIndex := 0 }]) := by
  simp [firstPage, h, set_pageIndex, coerceNumberProperty]

/-- `firstPage` with a failed guard. -/
lemma firstPage_of_not (s : MatPaginator) (h : hasPreviousPage s = false) :
    firstPage s = (s, []) := by
  simp [firstPage, h]

/-- `lastPage` with a satisfied guard: the guard forces a finite page count
`m`, and `pageIndex` is set to `m`. -/
lemma lastPage_of_hasNext (s : MatPaginator) (m : Int)
    (h : hasNextPage s = true) (hm : getNumberOfPages s = JSNum.fin m) :
    lastPage s = ({ s with _pageIndex := m },
                  [_emitPageEvent { s with _pageIndex := m }]) := by
  simp [lastPage, h, hm, set_pageIndex, coerceNumberProperty]

/-- `lastPage` with a failed guard. -/
lemma lastPage_of_not (s : MatPaginator) (h : hasNextPage s = false) :
    lastPage s = (s, []) := by
  simp [lastPage, h]

/-- A zero page size makes both availability queries false. -/
lemma hasPage_of_pageSize_zero (s : MatPaginator) (h : s._pageSize = some 0) :
    hasPreviousPage s = false ∧ hasNextPage s = false := by
  constructor
  · simp [hasPreviousPage, h]
  · simp [hasNextPage, h]

/-- Unfolding `_changePageSize` when the old page size is a defined number
and the new page size is nonzero: the call succeeds, the new page index is
the floored quotient of the old start index by the new page size, then the
page size is assigned (re-deriving the displayed options), and one event is
emitted reflecting the final state. -/
lemma changePageSize_eq (s : MatPaginator) (p newSize : Int)
    (hps : s._pageSize = some p) (hn : newSize ≠ 0) :
    _changePageSize s newSize =
      some (_updateDisplayedPageSizeOptions
              { s with _pageIndex := Int.fdiv (s._pageIndex * p) newSize,
                       _pageSize := some newSize },
            [_emitPageEvent
              (_updateDisplayedPageSizeOptions
                { s with _pageIndex := Int.fdiv (s._pageIndex * p) newSize,
                         _pageSize := some newSize })]) := by
  simp [_changePageSize, jsMul, hps, jsFloorDiv, hn, jsOrZero,
    set_pageIndex, set_pageSize, coerceNumberProperty]

/-! ### Claim theorems -/

/-- Claim C2: for every state with a positive page size and a nonnegative
length, `getNumberOfPages()` is the finite number `⌈length / pageSize⌉ - 1`,
which is `-1` when `length = 0` and otherwise the zero-based index of the
last page (the unique `m` with `m * pageSize < length ≤ (m+1) * pageSize`),
not a count of pages. -/
theorem getNumberOfPages_last_page_index (s : MatPaginator) (p : Int)
    (hps : s._pageSize = some p) (hp : 0 < p) (_hL : 0 ≤ s._length) :
    ∃ m : Int,
      getNumberOfPages s = JSNum.fin m ∧
      m = ⌈(s._length : ℚ) / (p : ℚ)⌉ - 1 ∧
      (s._length = 0 → m = -1) ∧
      (0 < s._length → m * p < s._length ∧ s._length ≤ (m + 1) * p) := by
  have hpQ : (0 : ℚ) < (p : ℚ) := by exact_mod_cast hp
  refine ⟨⌈(s._length : ℚ) / (p : ℚ)⌉ - 1, getNumberOfPages_pos s p hps hp,
    rfl, ?_, ?_⟩
  · intro h0
    rw [h0]
    norm_num
  · intro hpos
    constructor
    · have h1 : ((⌈(s._length : ℚ) / (p : ℚ)⌉ - 1 : ℤ) : ℚ) <
          (s._length : ℚ) / (p : ℚ) := Int.lt_ceil.mp (by omega)
      have h2 := (lt_div_iff₀ hpQ).mp h1
      exact_mod_cast h2
    · have h3 : (s._length : ℚ) / (p : ℚ) ≤ (⌈(s._length : ℚ) / (p : ℚ)⌉ : ℚ) :=
        Int.le_ceil _
      have h4 := (div_le_iff₀ hpQ).mp h3
      have h5 : (s._length : ℚ) ≤ ((⌈(s._length : ℚ) / (p : ℚ)⌉ - 1 + 1 : ℤ) : ℚ) * (p : ℚ) := by
        push_cast
        push_cast at h4
        linarith
      exact_mod_cast h5

/-- Claim C2 witness: with page size `10` and length `0` the page count is
`-1`. -/
theorem getNumberOfPages_last_page_index_witness :
    getNumberOfPages { initialState with _pageSize := some 10 } = JSNum.fin (-1) := by
  obtain ⟨m, hfin, _, hzero, _⟩ :=
    getNumberOfPages_last_page_index { initialState with _pageSize := some 10 }
      10 rfl (by decide) (by decide)
  rw [hzero (by decide)] at hfin
  exact hfin

/-- Claim C3: `hasPreviousPage()` holds exactly when `pageIndex ≥ 1` and
`pageSize ≠ 0`; `hasNextPage()` holds exactly when the page count is a finite
number `m` with `pageIndex < m` and `pageSize ≠ 0`; both are false whenever
`pageSize = 0`.  Both queries are total functions of the state (the division
by a zero page size yields a non-finite `JSNum`, never an error). -/
theorem hasPage_queries_characterized (s : MatPaginator) :
    (hasPreviousPage s = true ↔ 1 ≤ s._pageIndex ∧ s._pageSize ≠ some 0) ∧
    (hasNextPage s = true ↔
      ∃ m : Int, getNumberOfPages s = JSNum.fin m ∧
        s._pageIndex < m ∧ s._pageSize ≠ some 0) ∧
    (s._pageSize = some 0 → hasPreviousPage s = false ∧ hasNextPage s = false) :=
  ⟨hasPreviousPage_iff s, hasNextPage_iff s, fun h => hasPage_of_pageSize_zero s h⟩

/-- Claim C3 witness: with `pageSize = 0` both queries are false even at a
positive page index. -/
theorem hasPage_queries_characterized_witness :
    hasPreviousPage { initialState with _pageIndex := 3, _pageSize := some 0 } = false ∧
    hasNextPage { initialState with _pageIndex := 3, _pageSize := some 0 } = false :=
  (hasPage_queries_characterized
    { initialState with _pageIndex := 3, _pageSize := some 0 }).2.2 rfl

/-- Claim C4: each navigation operation is a no-op (identical state, no
event) when its precondition fails, and under its precondition changes only
`pageIndex` — `nextPage` to its successor, `previousPage` to its
predecessor, `firstPage` to `0`, `lastPage` to the (finite) page count —
emitting exactly one event; with `pageSize = 0` all four are no-ops. -/
theorem navigation_noop_and_frame (s : MatPaginator) :
    (hasNextPage s = false → nextPage s = (s, [])) ∧
    (hasNextPage s = true →
      nextPage s = ({ s with _pageIndex := s._pageIndex + 1 },
                    [_emitPageEvent { s with _pageIndex := s._pageIndex + 1 }])) ∧
    (hasPreviousPage s = false → previousPage s = (s, [])) ∧
    (hasPreviousPage s = true →
      previousPage s = ({ s with _pageIndex := s._pageIndex - 1 },
                        [_emitPageEvent { s with _pageIndex := s._pageIndex - 1 }])) ∧
    (hasPreviousPage s = false → firstPage s = (s, [])) ∧
    (hasPreviousPage s = true →
      firstPage s = ({ s with _pageIndex := 0 },
                     [_emitPageEvent { s with _pageIndex := 0 }])) ∧
    (hasNextPage s = false → lastPage s = (s, [])) ∧
    (hasNextPage s = true →
      ∃ m : Int, getNumberOfPages s = JSNum.fin m ∧
        lastPage s = ({ s with _pageIndex := m },
                      [_emitPageEvent { s with _pageIndex := m }])) ∧
    (s._pageSize = some 0 →
      nextPage s = (s, []) ∧ previousPage s = (s, []) ∧
      firstPage s = (s, []) ∧ lastPage s = (s, [])) := by
  refine ⟨nextPage_of_not s, nextPage_of_hasNext s,
    previousPage_of_not s, previousPage_of_hasPrev s,
    firstPage_of_not s, firstPage_of_hasPrev s,
    lastPage_of_not s, ?_, ?_⟩
  · intro h
    obtain ⟨m, hm, _⟩ := hasNextPage_getNumberOfPages_fin s h
    exact ⟨m, hm, lastPage_of_hasNext s m h hm⟩
  · intro h
    obtain ⟨hprev, hnext⟩ := hasPage_of_pageSize_zero s h
    exact ⟨nextPage_of_not s hnext, previousPage_of_not s hprev,
      firstPage_of_not s hprev, lastPage_of_not s hnext⟩

/-- Claim C4 witness: with `pageSize = 0` (and any page index) all four
navigation operations leave the state unchanged and emit nothing. -/
theorem navigation_noop_and_frame_witness :
    nextPage { initialState with _pageIndex := 7, _length := 100, _pageSize := some 0 } =
      ({ initialState with _pageIndex := 7, _length := 100, _pageSize := some 0 }, []) ∧
    previousPage { initialState with _pageIndex := 7, _length := 100, _pageSize := some 0 } =
      ({ initialState with _pageIndex := 7, _length := 100, _pageSize := some 0 }, []) ∧
    firstPage { initialState with _pageIndex := 7, _length := 100, _pageSize := some 0 } =
      ({ initialState with _pageIndex := 7, _length := 100, _pageSize := some 0 }, []) ∧
    lastPage { initialState with _pageIndex := 7, _length := 100, _pageSize := some 0 } =
      ({ initialState with _pageIndex := 7, _length := 100, _pageSize := some 0 }, []) :=
  (navigation_noop_and_frame
    { initialState with _pageIndex := 7, _length := 100, _pageSize := some 0 }).2.2.2.2.2.2.2.2 rfl

/-- Claim C5: once initialized, assigning `pageSize` or `pageSizeOptions`
(and initialization itself) synchronously re-derives
`displayedPageSizeOptions` into a defined list that contains the current
(resolved) page size and is sorted ascending; before initialization the
derivation is suppressed, so such an assignment changes only the raw field;
and with options `[25, 10, 50]` and page size `10` the derived list is
exactly `[10, 25, 50]`. -/
theorem displayedPageSizeOptions_invariant (s : MatPaginator) (v : JSValue)
    (w : Option (List JSValue)) :
    (s._initialized = true →
      (∃ (p : Int) (l : List Int),
        (set_pageSize s v).1._pageSize = some p ∧
        (set_pageSize s v).1._displayedPageSizeOptions = some l ∧
        p ∈ l ∧ List.Sorted (· ≤ ·) l) ∧
      (∃ (p : Int) (l : List Int),
        (set_pageSizeOptions s w).1._pageSize = some p ∧
        (set_pageSizeOptions s w).1._displayedPageSizeOptions = some l ∧
        p ∈ l ∧ List.Sorted (· ≤ ·) l)) ∧
    (∃ (p : Int) (l : List Int),
      (ngOnInit s)._pageSize = some p ∧
      (ngOnInit s)._displayedPageSizeOptions = some l ∧
      p ∈ l ∧ List.Sorted (· ≤ ·) l) ∧
    (s._initialized = false →
      (set_pageSize s v).1 = { s with _pageSize := some (coerceNumberProperty v) } ∧
      (set_pageSizeOptions s w).1 =
        { s with _pageSizeOptions := (w.getD []).map coerceNumberProperty }) ∧
    (set_pageSizeOptions
        { initialState with _initialized := true, _pageSize := some 10 }
        (some [JSValue.num 25, JSValue.num 10, JSValue.num 50])).1._displayedPageSizeOptions
      = some [10, 25, 50] := by
  refine ⟨fun hinit => ⟨?_, ?_⟩, ?_, fun hinit => ⟨?_, ?_⟩, by decide⟩
  · exact update_displayed { s with _pageSize := some (coerceNumberProperty v) } hinit
  · exact update_displayed
      { s with _pageSizeOptions := (w.getD []).map coerceNumberProperty } hinit
  · exact update_displayed { s with _initialized := true } rfl
  · exact update_not_initialized { s with _pageSize := some (coerceNumberProperty v) } hinit
  · exact update_not_initialized
      { s with _pageSizeOptions := (w.getD []).map coerceNumberProperty } hinit

/-- Claim C5 witness: assigning `pageSize := 25` on an initialized state
yields a defined page size contained in a defined, sorted displayed list. -/
theorem displayedPageSizeOptions_invariant_witness :
    ∃ (p : Int) (l : List Int),
      (set_pageSize { initialState with _initialized := true } (JSValue.num 25)).1._pageSize = some p ∧
      (set_pageSize { initialState with _initialized := true }
          (JSValue.num 25)).1._displayedPageSizeOptions = some l ∧
      p ∈ l ∧ List.Sorted (· ≤ ·) l :=
  ((displayedPageSizeOptions_invariant { initialState with _initialized := true }
      (JSValue.num 25) none).1 rfl).1

/-- Claim C6: when `pageSize` is unset or zero as initialization runs the
derivation, it is set to the first entry of `pageSizeOptions`, or to the
fixed fallback `50` when the options are empty; in particular the pristine
state, initialized, gets `pageSize = 50` and displayed options `[50]`. -/
theorem init_defaults_pageSize (s : MatPaginator)
    (h : s._pageSize = none ∨ s._pageSize = some 0) :
    ((s._pageSizeOptions = [] → (ngOnInit s)._pageSize = some 50) ∧
     (∀ (x : Int) (xs : List Int), s._pageSizeOptions = x :: xs →
        (ngOnInit s)._pageSize = some x)) ∧
    ((ngOnInit initialState)._pageSize = some 50 ∧
     (ngOnInit initialState)._displayedPageSizeOptions = some [50]) := by
  have hf : isFalsyNum ({ s with _initialized := true } : MatPaginator)._pageSize = true := by
    rcases h with h | h <;> simp [isFalsyNum, h]
  have key := update_pageSize_falsy { s with _initialized := true } rfl hf
  refine ⟨⟨fun hopts => ?_, fun x xs hopts => ?_⟩, by decide, by decide⟩
  · rw [ngOnInit, key]
    simp [hopts, DEFAULT_PAGE_SIZE]
  · rw [ngOnInit, key]
    simp [hopts]

/-- Claim C6 witness: the pristine state, initialized, has page size `50`. -/
theorem init_defaults_pageSize_witness :
    (ngOnInit initialState)._pageSize = some 50 :=
  (init_defaults_pageSize initialState (Or.inl rfl)).1.1 rfl

/-- Whenever `_changePageSize` produces a state (i.e. the new page index is
representable), the emitted trace is exactly one event, and it is the
snapshot of the final state. -/
lemma changePageSize_emits (s : MatPaginator) (n : Int) (s' : MatPaginator)
    (evs : List PageEvent) (h : _changePageSize s n = some (s', evs)) :
    evs = [_emitPageEvent s'] := by
  unfold _changePageSize at h
  rcases hj : jsOrZero (jsFloorDiv (jsMul s._pageIndex s._pageSize) n) with m | _ | _ | _ <;>
    simp only [hj] at h
  · obtain ⟨h1, h2⟩ := Prod.mk.injEq .. ▸ Option.some.injEq .. ▸ h
    rw [← h1, ← h2]
  · exact absurd h (by simp)
  · exact absurd h (by simp)
  · exact absurd h (by simp)

/-- Claim C7: direct assignment of `pageIndex` or `length` stores the coerced
value into that field only — no event is emitted, no other field (including
the derived `displayedPageSizeOptions`) changes, and `pageIndex` is not
re-validated against the new page count: shrinking `length` to `0` under
`pageIndex = 5` leaves `pageIndex = 5` while the page count becomes `-1`. -/
theorem set_pageIndex_set_length_frame (s : MatPaginator) (v : JSValue) :
    set_pageIndex s v = ({ s with _pageIndex := coerceNumberProperty v }, []) ∧
    set_length s v = ({ s with _length := coerceNumberProperty v }, []) ∧
    (set_length { initialState with _initialized := true, _pageIndex := 5, _pageSize := some 10, _length := 100 } (JSValue.num 0)).1._pageIndex = 5 ∧
    getNumberOfPages (set_length { initialState with _initialized := true, _pageIndex := 5, _pageSize := some 10, _length := 100 } (JSValue.num 0)).1 = JSNum.fin (-1) :=
  ⟨rfl, rfl, rfl, by decide⟩

/-- Claim C10: assigning `pageSizeOptions` with a null/undefined value stores
the empty list; assigning a list stores its elementwise numeric coercion (so
the stored field is always a list of numbers), with non-coercible elements
becoming the fallback `0`. -/
theorem set_pageSizeOptions_normalizes (s : MatPaginator) (l : List JSValue) :
    (set_pageSizeOptions s none).1._pageSizeOptions = [] ∧
    (set_pageSizeOptions s (some l)).1._pageSizeOptions = l.map coerceNumberProperty ∧
    (set_pageSizeOptions { initialState with _initialized := true }
        (some [JSValue.nonNumeric, JSValue.num 7])).1._pageSizeOptions = [0, 7] := by
  refine ⟨?_, ?_, by decide⟩
  · have h := (update_frame { s with _pageSizeOptions := ((none : Option (List JSValue)).getD []).map coerceNumberProperty }).2.2.2.1
    simpa [set_pageSizeOptions] using h
  · have h := (update_frame { s with _pageSizeOptions := ((some l).getD []).map coerceNumberProperty }).2.2.2.1
    simpa [set_pageSizeOptions] using h

/-- Claim C8: each mutating operation that is not a no-op emits exactly one
event, and the payload is the `{ pageIndex, pageSize, length }` snapshot of
the state after the whole mutation is applied. -/
theorem emits_exactly_one_after_mutation (s : MatPaginator) (n : Int) :
    (hasNextPage s = true →
      (nextPage s).2 = [{ pageIndex := (nextPage s).1._pageIndex,
                          pageSize := (nextPage s).1._pageSize,
                          length := (nextPage s).1._length }]) ∧
    (hasNextPage s = false → (nextPage s).2 = []) ∧
    (hasPreviousPage s = true →
      (previousPage s).2 = [{ pageIndex := (previousPage s).1._pageIndex,
                              pageSize := (previousPage s).1._pageSize,
                              length := (previousPage s).1._length }]) ∧
    (hasPreviousPage s = false → (previousPage s).2 = []) ∧
    (hasPreviousPage s = true →
      (firstPage s).2 = [{ pageIndex := (firstPage s).1._pageIndex,
                           pageSize := (firstPage s).1._pageSize,
                           length := (firstPage s).1._length }]) ∧
    (hasPreviousPage s = false → (firstPage s).2 = []) ∧
    (hasNextPage s = true →
      (lastPage s).2 = [{ pageIndex := (lastPage s).1._pageIndex,
                          pageSize := (lastPage s).1._pageSize,
                          length := (lastPage s).1._length }]) ∧
    (hasNextPage s = false → (lastPage s).2 = []) ∧
    (∀ (s' : MatPaginator) (evs : List PageEvent),
      _changePageSize s n = some (s', evs) →
      evs = [{ pageIndex := s'._pageIndex, pageSize := s'._pageSize,
               length := s'._length }]) := by
  refine ⟨?_, ?_, ?_, ?_, ?_, ?_, ?_, ?_, ?_⟩
  · intro h
    rw [nextPage_of_hasNext s h]
    rfl
  · intro h
    rw [nextPage_of_not s h]
  · intro h
    rw [previousPage_of_hasPrev s h]
    rfl
  · intro h
    rw [previousPage_of_not s h]
  · intro h
    rw [firstPage_of_hasPrev s h]
    rfl
  · intro h
    rw [firstPage_of_not s h]
  · intro h
    obtain ⟨m, hm, _⟩ := hasNextPage_getNumberOfPages_fin s h
    rw [lastPage_of_hasNext s m h hm]
    rfl
  · intro h
    rw [lastPage_of_not s h]
  · intro s' evs h
    exact changePageSize_emits s n s' evs h

/-- Claim C8 witness: from length `95`, page size `10`, page `0`, `nextPage`
emits exactly the snapshot of the state after the increment. -/
theorem emits_exactly_one_after_mutation_witness :
    (nextPage { initialState with _initialized := true, _length := 95, _pageSize := some 10 }).2 =
      [{ pageIndex := (nextPage { initialState with _initialized := true, _length := 95, _pageSize := some 10 }).1._pageIndex,
         pageSize := (nextPage { initialState with _initialized := true, _length := 95, _pageSize := some 10 }).1._pageSize,
         length := (nextPage { initialState with _initialized := true, _length := 95, _pageSize := some 10 }).1._length }] :=
  (emits_exactly_one_after_mutation { initialState with _initialized := true, _length := 95, _pageSize := some 10 } 0).1 (by decide)

/-- Claim C1: from any state with `pageIndex ≥ 0`, a defined old page size
whose start index `pageIndex * pageSize_old` is (finite and) nonnegative,
and any `newSize > 0`, `_changePageSize(newSize)` sets `pageIndex` to the
floor of `startIndex / newSize` (in particular a nonnegative value, so the
`|| 0` clamp is the identity here), then sets `pageSize = newSize` — which
re-derives the displayed options so that they contain `newSize` and stay
sorted — and then emits exactly one change notification. -/
theorem changePageSize_keeps_first_item_visible (s : MatPaginator)
    (p newSize : Int) (hps : s._pageSize = some p) (_hi : 0 ≤ s._pageIndex)
    (hsi : 0 ≤ s._pageIndex * p) (hn : 0 < newSize) :
    ∃ s' : MatPaginator,
      _changePageSize s newSize = some (s', [_emitPageEvent s']) ∧
      s'._pageIndex = Int.fdiv (s._pageIndex * p) newSize ∧
      s'._pageIndex = ⌊((s._pageIndex * p : Int) : ℚ) / (newSize : ℚ)⌋ ∧
      0 ≤ s'._pageIndex ∧
      s'._pageSize = some newSize ∧
      s'._length = s._length ∧
      (s._initialized = true →
        ∃ l : List Int, s'._displayedPageSizeOptions = some l ∧
          newSize ∈ l ∧ List.Sorted (· ≤ ·) l) := by
  have hkey := changePageSize_eq s p newSize hps hn.ne'
  have hnQ : (0 : ℚ) < (newSize : ℚ) := by exact_mod_cast hn
  refine ⟨_, hkey, ?_, ?_, ?_, ?_, ?_, ?_⟩
  · exact (update_frame _).2.1
  · rw [(update_frame _).2.1]
    show Int.fdiv (s._pageIndex * p) newSize = _
    exact fdiv_eq_floor _ _ hn
  · rw [(update_frame _).2.1]
    show 0 ≤ Int.fdiv (s._pageIndex * p) newSize
    rw [fdiv_eq_floor _ _ hn]
    refine Int.le_floor.mpr ?_
    refine div_nonneg ?_ hnQ.le
    exact_mod_cast hsi
  · rw [update_pageSize_not_falsy _ (by simp [isFalsyNum, hn.ne'])]
  · exact (update_frame _).2.2.1
  · intro hinit
    obtain ⟨p', l, hp', hl, hmem, hsort⟩ :=
      update_displayed { s with _pageIndex := Int.fdiv (s._pageIndex * p) newSize, _pageSize := some newSize } hinit
    have hps' : p' = newSize := by
      rw [update_pageSize_not_falsy _ (by simp [isFalsyNum, hn.ne'])] at hp'
      exact (Option.some.injEq .. ▸ hp').symm
    exact ⟨l, hl, hps' ▸ hmem, hsort⟩

/-- Claim C1 witness: from `pageIndex = 2`, `pageSize = 10`,
`changePageSize(5)` yields `pageIndex = 4`, page size `5`, one event. -/
theorem changePageSize_keeps_first_item_visible_witness :
    ∃ s' : MatPaginator,
      _changePageSize { initialState with _initialized := true, _pageIndex := 2, _pageSize := some 10 } 5 =
        some (s', [_emitPageEvent s']) ∧
      s'._pageIndex = 4 ∧ s'._pageSize = some 5 := by
  obtain ⟨s', h1, h2, _, _, h5, _, _⟩ :=
    changePageSize_keeps_first_item_visible
      { initialState with _initialized := true, _pageIndex := 2, _pageSize := some 10 }
      10 5 rfl (by decide) (by decide) (by decide)
  refine ⟨s', h1, ?_, h5⟩
  rw [h2]
  decide

/-- Claim C9 counterexample: the claim quantifies over every state, but from
the reachable state with `length = 0`, page size `10`, page index `0`
(exactly what initialization with options `[10]` produces on an empty list),
`_changePageSize(5)` completes with `pageIndex = 0` while
`numberOfPages() = -1`, so `pageIndex` does not lie within
`[0, numberOfPages()]` (that interval is empty). -/
theorem pageIndex_in_range_counterexample :
    _changePageSize { initialState with _initialized := true, _pageIndex := 0, _length := 0, _pageSize := some 10, _pageSizeOptions := [10], _displayedPageSizeOptions := some [10] } 5 =
      some ({ initialState with _initialized := true, _pageIndex := 0, _length := 0, _pageSize := some 5, _pageSizeOptions := [10], _displayedPageSizeOptions := some [5, 10] },
            [{ pageIndex := 0, pageSize := some 5, length := 0 }]) ∧
    getNumberOfPages { initialState with _initialized := true, _pageIndex := 0, _length := 0, _pageSize := some 5, _pageSizeOptions := [10], _displayedPageSizeOptions := some [5, 10] } = JSNum.fin (-1) ∧
    ¬(0 ≤ ({ initialState with _initialized := true, _pageIndex := 0, _length := 0, _pageSize := some 5, _pageSizeOptions := [10], _displayedPageSizeOptions := some [5, 10] } : MatPaginator)._pageIndex ∧
      ({ initialState with _initialized := true, _pageIndex := 0, _length := 0, _pageSize := some 5, _pageSizeOptions := [10], _displayedPageSizeOptions := some [5, 10] } : MatPaginator)._pageIndex ≤ -1) := by
  decide

/-- Claim C9 (amended): for every state whose `pageIndex` already lies
within `[0, numberOfPages()]` under a positive page size, each navigation
operation, and `_changePageSize(newSize)` for `newSize > 0`, leaves
`pageIndex` within `[0, numberOfPages()]` of the resulting state. -/
theorem pageIndex_in_range_preserved (s : MatPaginator) (p m newSize : Int)
    (hps : s._pageSize = some p) (hp : 0 < p)
    (hm : getNumberOfPages s = JSNum.fin m)
    (h0 : 0 ≤ s._pageIndex) (hub : s._pageIndex ≤ m) (hn : 0 < newSize) :
    (0 ≤ (nextPage s).1._pageIndex ∧ ∃ k : Int,
      getNumberOfPages (nextPage s).1 = JSNum.fin k ∧ (nextPage s).1._pageIndex ≤ k) ∧
    (0 ≤ (previousPage s).1._pageIndex ∧ ∃ k : Int,
      getNumberOfPages (previousPage s).1 = JSNum.fin k ∧ (previousPage s).1._pageIndex ≤ k) ∧
    (0 ≤ (firstPage s).1._pageIndex ∧ ∃ k : Int,
      getNumberOfPages (firstPage s).1 = JSNum.fin k ∧ (firstPage s).1._pageIndex ≤ k) ∧
    (0 ≤ (lastPage s).1._pageIndex ∧ ∃ k : Int,
      getNumberOfPages (lastPage s).1 = JSNum.fin k ∧ (lastPage s).1._pageIndex ≤ k) ∧
    (∀ (s' : MatPaginator) (evs : List PageEvent),
      _changePageSize s newSize = some (s', evs) →
      0 ≤ s'._pageIndex ∧ ∃ k : Int,
        getNumberOfPages s' = JSNum.fin k ∧ s'._pageIndex ≤ k) := by
  have hpQ : (0 : ℚ) < (p : ℚ) := by exact_mod_cast hp
  have hnQ : (0 : ℚ) < (newSize : ℚ) := by exact_mod_cast hn
  have hmval : m = ⌈(s._length : ℚ) / (p : ℚ)⌉ - 1 := by
    have h2 := getNumberOfPages_pos s p hps hp
    rw [hm] at h2
    injection h2
  refine ⟨?_, ?_, ?_, ?_, ?_⟩
  · by_cases hnext : hasNextPage s = true
    · obtain ⟨m', hm', hlt, _⟩ := (hasNextPage_iff s).mp hnext
      rw [hm] at hm'
      injection hm' with hmm
      subst hmm
      rw [nextPage_of_hasNext s hnext]
      refine ⟨?_, m, ?_, ?_⟩
      · show (0 : Int) ≤ s._pageIndex + 1
        omega
      · exact (getNumberOfPages_congr _ s rfl rfl).trans hm
      · show s._pageIndex + 1 ≤ m
        omega
    · rw [nextPage_of_not s (by simpa using hnext)]
      exact ⟨h0, m, hm, hub⟩
  · by_cases hprev : hasPreviousPage s = true
    · obtain ⟨h1, _⟩ := (hasPreviousPage_iff s).mp hprev
      rw [previousPage_of_hasPrev s hprev]
      refine ⟨?_, m, ?_, ?_⟩
      · show (0 : Int) ≤ s._pageIndex - 1
        omega
      · exact (getNumberOfPages_congr _ s rfl rfl).trans hm
      · show s._pageIndex - 1 ≤ m
        omega
    · rw [previousPage_of_not s (by simpa using hprev)]
      exact ⟨h0, m, hm, hub⟩
  · by_cases hprev : hasPreviousPage s = true
    · rw [firstPage_of_hasPrev s hprev]
      refine ⟨?_, m, ?_, ?_⟩
      · show (0 : Int) ≤ (0 : Int)
        omega
      · exact (getNumberOfPages_congr _ s rfl rfl).trans hm
      · show (0 : Int) ≤ m
        omega
    · rw [firstPage_of_not s (by simpa using hprev)]
      exact ⟨h0, m, hm, hub⟩
  · by_cases hnext : hasNextPage s = true
    · obtain ⟨m', hm', _⟩ := hasNextPage_getNumberOfPages_fin s hnext
      rw [hm] at hm'
      injection hm' with hmm
      subst hmm
      rw [lastPage_of_hasNext s m hnext hm]
      refine ⟨?_, m, ?_, ?_⟩
      · show (0 : Int) ≤ m
        omega
      · exact (getNumberOfPages_congr _ s rfl rfl).trans hm
      · show m ≤ m
        omega
    · rw [lastPage_of_not s (by simpa using hnext)]
      exact ⟨h0, m, hm, hub⟩
  · intro s' evs hcall
    rw [changePageSize_eq s p newSize hps hn.ne'] at hcall
    have hpair := Option.some.injEq .. ▸ hcall
    have hs' : _updateDisplayedPageSizeOptions { s with _pageIndex := Int.fdiv (s._pageIndex * p) newSize, _pageSize := some newSize } = s' :=
      congrArg Prod.fst hpair
    subst hs'
    have hfrpi := (update_frame { s with _pageIndex := Int.fdiv (s._pageIndex * p) newSize, _pageSize := some newSize }).2.1
    have hfrL := (update_frame { s with _pageIndex := Int.fdiv (s._pageIndex * p) newSize, _pageSize := some newSize }).2.2.1
    have hfps := update_pageSize_not_falsy
      { s with _pageIndex := Int.fdiv (s._pageIndex * p) newSize, _pageSize := some newSize }
      (by simp [isFalsyNum, hn.ne'])
    -- start index bounds
    have hsi : 0 ≤ s._pageIndex * p := mul_nonneg h0 hp.le
    have hceil : s._pageIndex < ⌈(s._length : ℚ) / (p : ℚ)⌉ := by omega
    have hiq : (s._pageIndex : ℚ) < (s._length : ℚ) / (p : ℚ) := Int.lt_ceil.mp hceil
    have hsiL : ((s._pageIndex * p : Int) : ℚ) < (s._length : ℚ) := by
      push_cast
      exact (lt_div_iff₀ hpQ).mp hiq
    have hfl : Int.fdiv (s._pageIndex * p) newSize = ⌊((s._pageIndex * p : Int) : ℚ) / (newSize : ℚ)⌋ :=
      fdiv_eq_floor _ _ hn
    constructor
    · rw [hfrpi]
      show 0 ≤ Int.fdiv (s._pageIndex * p) newSize
      rw [hfl]
      exact Int.le_floor.mpr (div_nonneg (by exact_mod_cast hsi) hnQ.le)
    · refine ⟨⌈(s._length : ℚ) / (newSize : ℚ)⌉ - 1, ?_, ?_⟩
      · have := getNumberOfPages_pos
          (_updateDisplayedPageSizeOptions { s with _pageIndex := Int.fdiv (s._pageIndex * p) newSize, _pageSize := some newSize })
          newSize (by rw [hfps]) hn
        rw [this, hfrL]
      · rw [hfrpi]
        show Int.fdiv (s._pageIndex * p) newSize ≤ ⌈(s._length : ℚ) / (newSize : ℚ)⌉ - 1
        have h2 : (↑⌊((s._pageIndex * p : Int) : ℚ) / (newSize : ℚ)⌋ : ℚ) ≤
            ((s._pageIndex * p : Int) : ℚ) / (newSize : ℚ) := Int.floor_le _
        have h3 : ((s._pageIndex * p : Int) : ℚ) / (newSize : ℚ) <
            (s._length : ℚ) / (newSize : ℚ) := div_lt_div_of_pos_right hsiL hnQ
        have h5 : ⌊((s._pageIndex * p : Int) : ℚ) / (newSize : ℚ)⌋ <
            ⌈(s._length : ℚ) / (newSize : ℚ)⌉ := Int.lt_ceil.mpr (lt_of_le_of_lt h2 h3)
        omega

/-- Claim C9 witness: from page `2` of `95` items at size `10` (page count
index `9`), `nextPage` keeps the index within `[0, 9]`. -/
theorem pageIndex_in_range_preserved_witness :
    0 ≤ (nextPage { initialState with _initialized := true, _pageIndex := 2, _length := 95, _pageSize := some 10 }).1._pageIndex ∧
    ∃ k : Int,
      getNumberOfPages (nextPage { initialState with _initialized := true, _pageIndex := 2, _length := 95, _pageSize := some 10 }).1 = JSNum.fin k ∧
      (nextPage { initialState with _initialized := true, _pageIndex := 2, _length := 95, _pageSize := some 10 }).1._pageIndex ≤ k :=
  (pageIndex_in_range_preserved
    { initialState with _initialized := true, _pageIndex := 2, _length := 95, _pageSize := some 10 }
    10 9 5 rfl (by decide) (by decide) (by decide) (by decide) (by decide)).1
